import Mathlib

/-!
Verification of the `simpleparse` module (merlincox/html-simple).

The repository converts a stream of HTML tokens into plain text.  The
tokenizer (`golang.org/x/net/html`) is an external collaborator; the driver
`simpleParse`, the callback interface `HtmlTexter`, the default builder
`simpleTexter` and the entry points `HTML2Text`, `Custom2Text`, `IsPlainText`
are embedded below, translated from `src/simpleparse.go`.

Tokens are modelled as a list of `Token` values followed by a final `Cause`
(the error the tokenizer reports at the end of the stream: `io.EOF` or some
other lexer failure).  The Go tag stack stores `interface{}` values; we model
the stored values with `StackVal` (a string, or any non-string value) so that
the type assertions `.(string)` of the source are visible: a failed assertion
or a `Pop`/`Peek` of an empty stack is modelled by the `panicked` outcome.
-/

/-- A token produced by the external tokenizer, as consumed by `simpleParse`.
`doctype` and `comment` carry no tag name: `tokenizer.TagName()` yields the
empty string for them. -/
inductive Token where
  | startTag (name : String)
  | endTag (name : String)
  | selfClosing (name : String)
  | text (raw : String)
  | doctype
  | comment
deriving DecidableEq, Repr

/-- The cause carried by the final `html.ErrorToken`: genuine end of input
(`io.EOF`) or another lexer failure with its message. -/
inductive Cause where
  | eof
  | lexError (msg : String)
deriving DecidableEq, Repr

/-- Errors returned by `simpleParse` (the `fmt.Errorf`/`errors.New` values of
the source), plus `tokenizerError` for a propagated lexer failure and
`panicked` for a Go runtime panic (empty-stack `Pop`/`Peek` or a failed
`interface{}`-to-string assertion), which the source never triggers. -/
inductive ParseError where
  | unterminatedTag (name : String)
  | strayEndTag (name : String)
  | tagMismatch (expected got : String)
  | noTags
  | tokenizerError (msg : String)
  | panicked
deriving DecidableEq, Repr

/-- `err.Error()` of the source's errors. -/
def ParseError.message : ParseError → String
  | .unterminatedTag name => "Unterminated tag: <" ++ name ++ ">"
  | .strayEndTag name => "End tag without start: </" ++ name ++ ">"
  | .tagMismatch expected got =>
      "Tag mismatch: <" ++ expected ++ "> with </" ++ got ++ ">"
  | .noTags => "Contains no tags"
  | .tokenizerError msg => msg
  | .panicked => "runtime panic"

/-- A value stored in the Go stack (`interface{}`): a string, or anything
else. `simpleParse` only ever pushes strings. -/
inductive StackVal where
  | str (s : String)
  | nonStr
deriving DecidableEq, Repr

/-- The `interface{}`-to-string type assertion `v.(string)`, made total. -/
def StackVal.asString : StackVal → Option String
  | .str s => some s
  | .nonStr => none

/-- The tag stack (`github.com/golang-collections/collections/stack`), head
of the list being the top of the stack. -/
abbrev Stack : Type := List StackVal

/-- `stack.Len()`. -/
def Stack.len (s : Stack) : Nat := List.length s

/-- `stack.Push(v)`. -/
def Stack.push (s : Stack) (v : StackVal) : Stack := v :: s

/-- `stack.Pop()`: top value and remaining stack, `none` when empty (Go
returns `nil`, and the subsequent assertion would panic). -/
def Stack.pop : Stack → Option (StackVal × Stack)
  | [] => none
  | v :: rest => some (v, rest)

/-- `stack.Peek()`: top value, `none` when empty. -/
def Stack.peek : Stack → Option StackVal
  | [] => none
  | v :: _ => some v

/-- The `voidElements` map of the source. -/
def voidElements (tag : String) : Bool :=
  tag = "area" || tag = "base" || tag = "br" || tag = "col" ||
  tag = "command" || tag = "embed" || tag = "hr" || tag = "img" ||
  tag = "input" || tag = "keygen" || tag = "link" || tag = "meta" ||
  tag = "param" || tag = "source" || tag = "track" || tag = "wbr"

/-- The `selfBreakers` map: absent keys give 0, as Go map access does. -/
def selfBreakers (tag : String) : Nat :=
  if tag = "br" then 1 else 0

/-- The `openingBreakers` map: absent keys give 0. -/
def openingBreakers (tag : String) : Nat :=
  if tag = "p" then 1
  else if tag = "h1" then 2
  else if tag = "h2" then 2
  else if tag = "h3" then 2
  else if tag = "h4" then 2
  else if tag = "h5" then 2
  else if tag = "h6" then 2
  else if tag = "ul" then 1
  else 0

/-- The `closingBreakers` map: absent keys give 0. -/
def closingBreakers (tag : String) : Nat :=
  if tag = "p" then 1
  else if tag = "h1" then 2
  else if tag = "h2" then 2
  else if tag = "h3" then 2
  else if tag = "h4" then 2
  else if tag = "h5" then 2
  else if tag = "h6" then 2
  else if tag = "li" then 1
  else 0

/-- The `HtmlTexter` interface of the source, over a state type `σ`: each
method is a pure state transformer, `String` is the final-output accessor. -/
structure HtmlTexter (σ : Type) where
  StartTag : σ → String → σ
  SelfTag : σ → String → σ
  EndTag : σ → String → σ
  Text : σ → String → String → σ
  Stringify : σ → String

/-- The character class of the `whiteSpaceRE` regexp `[\s\p{Zs}]+`: Go's
`\s` is space, tab, newline, form feed, carriage return; `\p{Zs}` is the
Unicode space-separator category. -/
def isWhiteSpaceChar (c : Char) : Bool :=
  c = ' ' || c = '\t' || c = '\n' || c.val = 12 || c = '\r' ||
  c.val = 0xA0 || c.val = 0x1680 ||
  (0x2000 ≤ c.val && c.val ≤ 0x200A) ||
  c.val = 0x202F || c.val = 0x205F || c.val = 0x3000

/-- One pass of `whiteSpaceRE.ReplaceAllString(src, " ")`: every maximal run
of `whiteSpaceRE` characters becomes one space; `inRun` records that the
current position is inside a run whose space was already emitted. -/
def cleanWhiteSpaceGo : Bool → List Char → List Char
  | _, [] => []
  | inRun, c :: rest =>
    if isWhiteSpaceChar c then
      if inRun then cleanWhiteSpaceGo true rest
      else ' ' :: cleanWhiteSpaceGo true rest
    else c :: cleanWhiteSpaceGo false rest

/-- `cleanWhiteSpace` of the source. -/
def cleanWhiteSpace (src : String) : String :=
  String.mk (cleanWhiteSpaceGo false src.data)

/-- `strings.Repeat(s, n)`. -/
def strRepeat (s : String) (n : Nat) : String :=
  String.join (List.replicate n s)

/-- The cutset of `strings.Trim(s, " \r\n")`. -/
def isTrimChar (c : Char) : Bool :=
  c = ' ' || c = '\r' || c = '\n'

/-- Strip leading and trailing characters satisfying `p` from a list. -/
def goTrimList {α : Type} (p : α → Bool) (l : List α) : List α :=
  ((l.dropWhile p).reverse.dropWhile p).reverse

/-- `strings.Trim(s, " \r\n")`: strip leading and trailing cutset characters. -/
def goTrim (s : String) : String :=
  String.mk (goTrimList isTrimChar s.data)

/-- The `simpleTexter` struct: output buffer and linebreak string. -/
structure simpleTexter where
  sb : String
  lbr : String
deriving DecidableEq, Repr

/-- `simpleTexter.StartTag`. -/
def simpleTexter.StartTag (h : simpleTexter) (tag : String) : simpleTexter :=
  { h with sb := h.sb ++ strRepeat h.lbr (openingBreakers tag) }

/-- `simpleTexter.SelfTag`. -/
def simpleTexter.SelfTag (h : simpleTexter) (tag : String) : simpleTexter :=
  { h with sb := h.sb ++ strRepeat h.lbr (selfBreakers tag) }

/-- `simpleTexter.EndTag`. -/
def simpleTexter.EndTag (h : simpleTexter) (tag : String) : simpleTexter :=
  { h with sb := h.sb ++ strRepeat h.lbr (closingBreakers tag) }

/-- `simpleTexter.Text`: text inside `<title>` is dropped, anything else is
whitespace-collapsed and appended. -/
def simpleTexter.Text (h : simpleTexter) (enclosing input : String) : simpleTexter :=
  if enclosing ≠ "title" then
    { h with sb := h.sb ++ cleanWhiteSpace input }
  else h

/-- `simpleTexter.String`: the buffer trimmed of outer spaces and linebreaks. -/
def simpleTexter.Stringify (h : simpleTexter) : String :=
  goTrim h.sb

/-- The `HtmlTexter` instance of `simpleTexter`. -/
def simpleTexterCb : HtmlTexter simpleTexter where
  StartTag := simpleTexter.StartTag
  SelfTag := simpleTexter.SelfTag
  EndTag := simpleTexter.EndTag
  Text := simpleTexter.Text
  Stringify := simpleTexter.Stringify

/-- The void-element reclassification at the top of the parse loop:
a start tag whose name is in `voidElements` becomes self-closing. -/
def reclassify : Token → Token
  | .startTag name => if voidElements name then .selfClosing name else .startTag name
  | t => t

/-- The body of `simpleParse`'s loop, one recursive call per token.
`cb?` is the `texter` argument (`none` models a nil `HtmlTexter`), `st` the
callback state, `stack` the tag stack, `untagged` the flag recording that no
tag-like construct has been seen yet.  The final `Cause` plays the role of
`tokenizer.Err()` at the `html.ErrorToken`. -/
def simpleParseLoop {σ : Type} (cb? : Option (HtmlTexter σ)) (mustTag : Bool) :
    List Token → Cause → Stack → Bool → σ → Except ParseError σ
  | [], cause, stack, untagged, st =>
    match cause with
    | .eof =>
      if Stack.len stack ≠ 0 then
        match Stack.pop stack with
        | some (v, _) =>
          match StackVal.asString v with
          | some popped => .error (.unterminatedTag popped)
          | none => .error .panicked
        | none => .error .panicked
      else if untagged && mustTag then .error .noTags
      else .ok st
    | .lexError msg => .error (.tokenizerError msg)
  | tok :: rest, cause, stack, untagged, st =>
    match reclassify tok with
    | .startTag name =>
      let st' := match cb? with
        | some cb => cb.StartTag st name
        | none => st
      simpleParseLoop cb? mustTag rest cause (Stack.push stack (.str name)) false st'
    | .text raw =>
      match cb? with
      | none => simpleParseLoop cb? mustTag rest cause stack untagged st
      | some cb =>
        if Stack.len stack > 0 then
          match Stack.peek stack with
          | some v =>
            match StackVal.asString v with
            | some enclosing =>
                simpleParseLoop cb? mustTag rest cause stack untagged (cb.Text st enclosing raw)
            | none => .error .panicked
          | none => .error .panicked
        else
          simpleParseLoop cb? mustTag rest cause stack untagged (cb.Text st "" raw)
    | .selfClosing name =>
      let st' := match cb? with
        | some cb => cb.SelfTag st name
        | none => st
      simpleParseLoop cb? mustTag rest cause stack false st'
    | .doctype =>
      let st' := match cb? with
        | some cb => cb.SelfTag st ""
        | none => st
      simpleParseLoop cb? mustTag rest cause stack false st'
    | .comment =>
      let st' := match cb? with
        | some cb => cb.SelfTag st ""
        | none => st
      simpleParseLoop cb? mustTag rest cause stack false st'
    | .endTag name =>
      if Stack.len stack = 0 then .error (.strayEndTag name)
      else
        match Stack.pop stack with
        | some (v, stack') =>
          match StackVal.asString v with
          | some popped =>
            if popped ≠ name then .error (.tagMismatch popped name)
            else
              let st' := match cb? with
                | some cb => cb.EndTag st name
                | none => st
              simpleParseLoop cb? mustTag rest cause stack' untagged st'
          | none => .error .panicked
        | none => .error .panicked

/-- `simpleParse(src, mustTag, texter)`: fresh empty stack, `untagged = true`.
On success the final callback state is returned (the Go function returns
`nil` and leaves the state in the texter). -/
def simpleParse {σ : Type} (cb? : Option (HtmlTexter σ)) (init : σ)
    (mustTag : Bool) (tokens : List Token) (cause : Cause) : Except ParseError σ :=
  simpleParseLoop cb? mustTag tokens cause [] true init

/-- The linebreak choice of `HTML2Text`: `"\r\n"` when
`len(winLbr) > 0 && winLbr[0] == true`, else the default `"\n"`. -/
def lbrOf (winLbr : List Bool) : String :=
  match winLbr with
  | true :: _ => "\r\n"
  | _ => "\n"

/-- `HTML2Text(src, winLbr...)` from `src/simpleparse.go`: the variadic
`winLbr` is a list of booleans; linebreaks are Windows style when the first
is `true`. Any parse error yields `""`. -/
def HTML2Text (tokens : List Token) (cause : Cause) (winLbr : List Bool) : String :=
  match simpleParse (some simpleTexterCb) { sb := "", lbr := lbrOf winLbr } false tokens cause with
  | .ok texter => texter.Stringify
  | .error _ => ""

/-- `Custom2Text(src, mustTag, texter)`.  Note the source passes the literal
`false` to `simpleParse`, not `mustTag`. -/
def Custom2Text {σ : Type} (cb : HtmlTexter σ) (init : σ) (mustTag : Bool)
    (tokens : List Token) (cause : Cause) : String × Option ParseError :=
  match simpleParse (some cb) init false tokens cause with
  | .ok st => (cb.Stringify st, none)
  | .error e => ("", some e)

/-- `IsPlainText(src)`: parse with `mustTag = true` and a nil texter, and
test the error message against `"Contains no tags"`. -/
def IsPlainText (tokens : List Token) (cause : Cause) : Bool :=
  match simpleParse (none : Option (HtmlTexter Unit)) () true tokens cause with
  | .ok _ => false
  | .error e => e.message == "Contains no tags"

/-- Modelled from the spec: the external markup tokenizer
(`golang.org/x/net/html`, not part of this repository) lexes a source string
into the ordered token sequence of §3.  This model covers the plain markup of
the spec's examples: `<name>` is a start tag, `</name>` an end tag, and runs
between tags are text; a `<` never followed by `>` is taken as text.  With a
fully in-memory string the stream always ends in genuine end-of-input. -/
def tokenizeGo : Nat → List Char → List Token
  | 0, _ => []
  | _ + 1, [] => []
  | fuel + 1, '<' :: '/' :: rest =>
    match rest.dropWhile (fun c => c ≠ '>') with
    | _ :: rest3 =>
        .endTag (String.mk (rest.takeWhile (fun c => c ≠ '>'))) :: tokenizeGo fuel rest3
    | [] => [.text (String.mk ('<' :: '/' :: rest))]
  | fuel + 1, '<' :: rest =>
    match rest.dropWhile (fun c => c ≠ '>') with
    | _ :: rest3 =>
        .startTag (String.mk (rest.takeWhile (fun c => c ≠ '>'))) :: tokenizeGo fuel rest3
    | [] => [.text (String.mk ('<' :: rest))]
  | fuel + 1, c :: rest =>
    .text (String.mk (c :: rest.takeWhile (fun d => d ≠ '<'))) ::
      tokenizeGo fuel (rest.dropWhile (fun d => d ≠ '<'))

/-- Modelled from the spec: entry point of the tokenizer model, with enough
fuel for the whole input (every step consumes at least one character). -/
def tokenize (l : List Char) : List Token :=
  tokenizeGo (l.length + 1) l

/-- `HTML2Text` on a source string, through the modelled tokenizer. -/
def HTML2TextS (src : String) (winLbr : List Bool) : String :=
  HTML2Text (tokenize src.data) .eof winLbr

/-- `Custom2Text` on a source string, through the modelled tokenizer. -/
def Custom2TextS {σ : Type} (cb : HtmlTexter σ) (init : σ) (mustTag : Bool)
    (src : String) : String × Option ParseError :=
  Custom2Text cb init mustTag (tokenize src.data) .eof

/-- `IsPlainText` on a source string, through the modelled tokenizer. -/
def IsPlainTextS (src : String) : Bool :=
  IsPlainText (tokenize src.data) .eof

/-- The fresh `simpleTexter` that `HTML2Text` builds for Unix linebreaks. -/
def initTexter : simpleTexter := { sb := "", lbr := "\n" }

/-! ### Helper lemmas -/

theorem head?_dropWhile_false {α : Type} (p : α → Bool) (l : List α) {a : α}
    (h : (l.dropWhile p).head? = some a) : p a = false := by
  have h2 := List.head?_dropWhile_not p l
  rw [h] at h2
  exact h2

theorem dropWhile_eq_self_of_head? {α : Type} (p : α → Bool) (l : List α)
    (h : ∀ a, l.head? = some a → p a = false) : l.dropWhile p = l := by
  cases l with
  | nil => rfl
  | cons a t =>
    rw [List.dropWhile_cons, h a List.head?_cons]
    simp

theorem dropWhile_idem {α : Type} (p : α → Bool) (l : List α) :
    (l.dropWhile p).dropWhile p = l.dropWhile p := by
  apply dropWhile_eq_self_of_head?
  intro a ha
  exact head?_dropWhile_false p l ha

theorem goTrimList_ltrim {α : Type} (p : α → Bool) (d : List α) :
    (goTrimList p d).dropWhile p = goTrimList p d := by
  apply dropWhile_eq_self_of_head?
  intro a ha
  have hsuf : (d.dropWhile p).reverse.dropWhile p <:+ (d.dropWhile p).reverse :=
    List.dropWhile_suffix p
  have hpre : goTrimList p d <+: d.dropWhile p := by
    have h2 := List.reverse_prefix.mpr hsuf
    rwa [List.reverse_reverse] at h2
  obtain ⟨r, hr⟩ := hpre
  have hne : goTrimList p d ≠ [] := by
    intro h0
    rw [h0] at ha
    simp at ha
  have hd1 : (d.dropWhile p).head? = some a := by
    rw [← hr, List.head?_append_of_ne_nil _ hne]
    exact ha
  exact head?_dropWhile_false p d hd1

theorem goTrimList_idem {α : Type} (p : α → Bool) (l : List α) :
    goTrimList p (goTrimList p l) = goTrimList p l := by
  have h1 : (goTrimList p l).dropWhile p = goTrimList p l := goTrimList_ltrim p l
  show (((goTrimList p l).dropWhile p).reverse.dropWhile p).reverse = goTrimList p l
  rw [h1]
  show ((((l.dropWhile p).reverse.dropWhile p).reverse).reverse.dropWhile p).reverse
    = goTrimList p l
  rw [List.reverse_reverse, dropWhile_idem]
  rfl

theorem goTrim_idem (s : String) : goTrim (goTrim s) = goTrim s :=
  congrArg String.mk (goTrimList_idem isTrimChar s.data)

theorem message_unterminated_ne (n : String) :
    ParseError.message (.unterminatedTag n) ≠ "Contains no tags" := by
  intro h
  have h2 := congrArg String.length h
  rw [ParseError.message, String.length_append, String.length_append] at h2
  have e1 : ("Unterminated tag: <" : String).length = 19 := by decide
  have e2 : (">" : String).length = 1 := by decide
  have e3 : ("Contains no tags" : String).length = 16 := by decide
  omega

theorem message_strayEnd_ne (n : String) :
    ParseError.message (.strayEndTag n) ≠ "Contains no tags" := by
  intro h
  have h2 := congrArg String.length h
  rw [ParseError.message, String.length_append, String.length_append] at h2
  have e1 : ("End tag without start: </" : String).length = 25 := by decide
  have e2 : (">" : String).length = 1 := by decide
  have e3 : ("Contains no tags" : String).length = 16 := by decide
  omega

theorem message_mismatch_ne (a b : String) :
    ParseError.message (.tagMismatch a b) ≠ "Contains no tags" := by
  intro h
  have h2 := congrArg String.length h
  rw [ParseError.message, String.length_append, String.length_append,
    String.length_append, String.length_append] at h2
  have e1 : ("Tag mismatch: <" : String).length = 15 := by decide
  have e2 : ("> with </" : String).length = 9 := by decide
  have e3 : (">" : String).length = 1 := by decide
  have e4 : ("Contains no tags" : String).length = 16 := by decide
  omega

theorem simpleParseLoop_eof_no_tokenizerError {σ : Type}
    (cb? : Option (HtmlTexter σ)) (mustTag : Bool) :
    ∀ (tokens : List Token) (stack : Stack) (untagged : Bool) (st : σ) (msg : String),
      simpleParseLoop cb? mustTag tokens .eof stack untagged st ≠
        .error (.tokenizerError msg) := by
  intro tokens
  induction tokens with
  | nil =>
    intro stack untagged st msg
    intro h
    simp only [simpleParseLoop] at h
    cases stack with
    | nil =>
      simp only [Stack.len, List.length_nil] at h
      norm_num at h
      split at h <;> simp_all
    | cons v t =>
      cases v <;> simp_all [Stack.len, Stack.pop, StackVal.asString]
  | cons tok rest ih =>
    intro stack untagged st msg
    cases hre : reclassify tok with
    | startTag name =>
      simp only [simpleParseLoop, hre]
      exact ih _ _ _ _
    | endTag name =>
      simp only [simpleParseLoop, hre]
      cases stack with
      | nil => simp [Stack.len]
      | cons v t =>
        cases v with
        | str popped =>
          by_cases hpn : popped = name
          · simp only [Stack.len, List.length_cons, Stack.pop, StackVal.asString,
              hpn, ne_eq, Nat.succ_ne_zero, if_false, not_true_eq_false, if_neg,
              not_false_eq_true, reduceIte]
            exact ih _ _ _ _
          · simp [Stack.len, Stack.pop, StackVal.asString, hpn]
        | nonStr =>
          simp [Stack.len, Stack.pop, StackVal.asString]
    | selfClosing name =>
      simp only [simpleParseLoop, hre]
      exact ih _ _ _ _
    | doctype =>
      simp only [simpleParseLoop, hre]
      exact ih _ _ _ _
    | comment =>
      simp only [simpleParseLoop, hre]
      exact ih _ _ _ _
    | text raw =>
      simp only [simpleParseLoop, hre]
      cases cb? with
      | none => exact ih _ _ _ _
      | some cb =>
        cases stack with
        | nil =>
          simp only [Stack.len, List.length_nil, gt_iff_lt, Nat.lt_irrefl, if_false,
            reduceIte]
          exact ih _ _ _ _
        | cons v t =>
          cases v with
          | str s =>
            simp only [Stack.len, List.length_cons, Stack.peek, StackVal.asString,
              gt_iff_lt, Nat.zero_lt_succ, if_true, reduceIte]
            exact ih _ _ _ _
          | nonStr =>
            simp [Stack.len, Stack.peek, StackVal.asString]

theorem simpleParseLoop_no_panic {σ : Type}
    (cb? : Option (HtmlTexter σ)) (mustTag : Bool) :
    ∀ (tokens : List Token) (cause : Cause) (stack : Stack) (untagged : Bool) (st : σ),
      (∀ v ∈ stack, v ≠ StackVal.nonStr) →
      simpleParseLoop cb? mustTag tokens cause stack untagged st ≠ .error .panicked := by
  intro tokens
  induction tokens with
  | nil =>
    intro cause stack untagged st hinv
    cases cause with
    | lexError msg => simp [simpleParseLoop]
    | eof =>
      intro h
      simp only [simpleParseLoop] at h
      cases stack with
      | nil =>
        simp only [Stack.len, List.length_nil] at h
        norm_num at h
        split at h <;> simp_all
      | cons v t =>
        have hv : v ≠ StackVal.nonStr := hinv v (List.mem_cons_self v t)
        cases v with
        | str s => simp_all [Stack.len, Stack.pop, StackVal.asString]
        | nonStr => exact absurd rfl hv
  | cons tok rest ih =>
    intro cause stack untagged st hinv
    cases hre : reclassify tok with
    | startTag name =>
      simp only [simpleParseLoop, hre]
      refine ih _ _ _ _ ?_
      intro v hv
      rcases List.mem_cons.mp hv with h | h
      · rw [h]
        intro hc
        cases hc
      · exact hinv v h
    | endTag name =>
      simp only [simpleParseLoop, hre]
      cases stack with
      | nil => simp [Stack.len]
      | cons v t =>
        have hv : v ≠ StackVal.nonStr := hinv v (List.mem_cons_self v t)
        cases v with
        | str popped =>
          by_cases hpn : popped = name
          · simp only [Stack.len, List.length_cons, Stack.pop, StackVal.asString,
              hpn, ne_eq, Nat.succ_ne_zero, if_false, not_true_eq_false, if_neg,
              not_false_eq_true, reduceIte]
            refine ih _ _ _ _ ?_
            intro w hw
            exact hinv w (List.mem_cons_of_mem _ hw)
          · simp [Stack.len, Stack.pop, StackVal.asString, hpn]
        | nonStr => exact absurd rfl hv
    | selfClosing name =>
      simp only [simpleParseLoop, hre]
      exact ih _ _ _ _ hinv
    | doctype =>
      simp only [simpleParseLoop, hre]
      exact ih _ _ _ _ hinv
    | comment =>
      simp only [simpleParseLoop, hre]
      exact ih _ _ _ _ hinv
    | text raw =>
      simp only [simpleParseLoop, hre]
      cases cb? with
      | none => exact ih _ _ _ _ hinv
      | some cb =>
        cases stack with
        | nil =>
          simp only [Stack.len, List.length_nil, gt_iff_lt, Nat.lt_irrefl, if_false,
            reduceIte]
          exact ih _ _ _ _ hinv
        | cons v t =>
          have hv : v ≠ StackVal.nonStr := hinv v (List.mem_cons_self v t)
          cases v with
          | str s =>
            simp only [Stack.len, List.length_cons, Stack.peek, StackVal.asString,
              gt_iff_lt, Nat.zero_lt_succ, if_true, reduceIte]
            exact ih _ _ _ _ hinv
          | nonStr => exact absurd rfl hv

/-! ### Claims -/

/-- C1 (code bug): the claim says `Custom2Text` with `mustTag = true` fails
with the `NoTagsError` on tag-free input, and the function's own
documentation says so too, but the source passes the literal `false` (not
`mustTag`) to `simpleParse`, so the flag is ignored: `Custom2Text` behaves
identically for both flag values, and on the tag-free source "hello" with
`mustTag = true` it succeeds with `("hello", none)` instead of failing. -/
theorem custom2Text_mustTag_ignored :
    (∀ (σ : Type) (cb : HtmlTexter σ) (init : σ) (tokens : List Token) (cause : Cause),
      Custom2Text cb init true tokens cause = Custom2Text cb init false tokens cause) ∧
    Custom2TextS simpleTexterCb initTexter true "hello" = ("hello", none) := by
  refine ⟨fun σ cb init tokens cause => rfl, by decide⟩

/-- C2: `IsPlainText` returns true if and only if parsing with
`requireTags = true` and no callback fails specifically with the
`NoTagsError`; moreover `IsPlainText "hello world" = true`,
`IsPlainText "" = true`, and `IsPlainText "<p>hi</p>" = false`. -/
theorem isPlainText_iff_noTags :
    (∀ tokens : List Token,
      IsPlainText tokens .eof = true ↔
        simpleParse (none : Option (HtmlTexter Unit)) () true tokens .eof =
          .error .noTags) ∧
    IsPlainTextS "hello world" = true ∧ IsPlainTextS "" = true ∧
    IsPlainTextS "<p>hi</p>" = false := by
  refine ⟨?_, by decide, by decide, by decide⟩
  intro tokens
  unfold IsPlainText
  cases hr : simpleParse (none : Option (HtmlTexter Unit)) () true tokens .eof with
  | ok u => simp
  | error e =>
    cases e with
    | noTags => simp [ParseError.message]
    | unterminatedTag n =>
      rw [beq_iff_eq]
      constructor
      · intro h
        exact absurd h (message_unterminated_ne n)
      · intro h
        exact absurd h (by simp)
    | strayEndTag n =>
      rw [beq_iff_eq]
      constructor
      · intro h
        exact absurd h (message_strayEnd_ne n)
      · intro h
        exact absurd h (by simp)
    | tagMismatch a b =>
      rw [beq_iff_eq]
      constructor
      · intro h
        exact absurd h (message_mismatch_ne a b)
      · intro h
        exact absurd h (by simp)
    | panicked =>
      rw [beq_iff_eq]
      constructor
      · intro h
        exact absurd h (by decide)
      · intro h
        exact absurd h (by simp)
    | tokenizerError msg =>
      exact absurd hr
        (simpleParseLoop_eof_no_tokenizerError (none : Option (HtmlTexter Unit))
          true tokens [] true () msg)

/-- Witness for C2 on a concrete token stream: one text token, no tags. -/
theorem isPlainText_iff_noTags_witness :
    IsPlainText [Token.text "x"] .eof = true ↔
      simpleParse (none : Option (HtmlTexter Unit)) () true [Token.text "x"] .eof =
        .error .noTags :=
  isPlainText_iff_noTags.1 [Token.text "x"]

/-- C3: on an `EndTag(name)` token the driver fails with
`StrayEndTagError(name)` when the stack is empty, otherwise pops the top and
fails with `TagMismatchError(popped, name)` when the popped name differs from
`name`, and otherwise invokes the callback's end-tag handler; and parsing
"<p>Hi</div>" fails with the mismatch error carrying expected "p", got
"div". -/
theorem endTag_dispatch :
    (∀ (σ : Type) (cb? : Option (HtmlTexter σ)) (mustTag : Bool) (name : String)
        (rest : List Token) (cause : Cause) (stack : List String) (untagged : Bool)
        (st : σ),
      simpleParseLoop cb? mustTag (Token.endTag name :: rest) cause
          (stack.map StackVal.str) untagged st =
        match stack with
        | [] => .error (.strayEndTag name)
        | popped :: stack2 =>
          if popped ≠ name then .error (.tagMismatch popped name)
          else
            simpleParseLoop cb? mustTag rest cause (stack2.map StackVal.str) untagged
              (match cb? with | some cb => cb.EndTag st name | none => st)) ∧
    Custom2TextS simpleTexterCb initTexter false "<p>Hi</div>" =
      ("", some (.tagMismatch "p" "div")) := by
  constructor
  · intro σ cb? mustTag name rest cause stack untagged st
    cases stack with
    | nil => rfl
    | cons popped stack2 =>
      by_cases hpn : popped = name
      · simp [simpleParseLoop, reclassify, Stack.len, Stack.pop, StackVal.asString, hpn]
      · simp [simpleParseLoop, reclassify, Stack.len, Stack.pop, StackVal.asString, hpn]
  · decide

/-- C4: at genuine end-of-input the driver fails with `UnterminatedTagError`
naming exactly the top-of-stack tag when the stack is non-empty, succeeds on
an empty stack when `requireTags` is off, and propagates any non-EOF
tokenizer failure unchanged; and parsing "<p>Hi" fails with
`UnterminatedTagError("p")`. -/
theorem eof_unterminated_top :
    (∀ (σ : Type) (cb? : Option (HtmlTexter σ)) (mustTag : Bool) (top : String)
        (stack2 : List String) (untagged : Bool) (st : σ),
      simpleParseLoop cb? mustTag [] .eof ((top :: stack2).map StackVal.str)
          untagged st = .error (.unterminatedTag top)) ∧
    (∀ (σ : Type) (cb? : Option (HtmlTexter σ)) (untagged : Bool) (st : σ),
      simpleParseLoop cb? false [] .eof [] untagged st = .ok st) ∧
    (∀ (σ : Type) (cb? : Option (HtmlTexter σ)) (mustTag : Bool) (stack : Stack)
        (untagged : Bool) (st : σ) (msg : String),
      simpleParseLoop cb? mustTag [] (.lexError msg) stack untagged st =
        .error (.tokenizerError msg)) ∧
    Custom2TextS simpleTexterCb initTexter false "<p>Hi" =
      ("", some (.unterminatedTag "p")) := by
  refine ⟨?_, ?_, ?_, by decide⟩
  · intro σ cb? mustTag top stack2 untagged st
    simp [simpleParseLoop, Stack.len, Stack.pop, StackVal.asString]
  · intro σ cb? untagged st
    simp [simpleParseLoop, Stack.len]
  · intro σ cb? mustTag stack untagged st msg
    rfl

/-- C5: a start tag whose name is in the void-element set is reclassified as
self-closing before dispatch: the stack is left unchanged, the self-tag
handler (not the start-tag handler) is invoked; and parsing "<br>Line2"
succeeds with no stack entry for "br". -/
theorem void_start_reclassified :
    (∀ (σ : Type) (cb? : Option (HtmlTexter σ)) (mustTag : Bool) (name : String)
        (rest : List Token) (cause : Cause) (stack : Stack) (untagged : Bool) (st : σ),
      voidElements name = true →
      simpleParseLoop cb? mustTag (Token.startTag name :: rest) cause stack untagged st =
        simpleParseLoop cb? mustTag rest cause stack false
          (match cb? with | some cb => cb.SelfTag st name | none => st)) ∧
    Custom2TextS simpleTexterCb initTexter false "<br>Line2" = ("Line2", none) := by
  constructor
  · intro σ cb? mustTag name rest cause stack untagged st hvoid
    simp [simpleParseLoop, reclassify, hvoid]
  · decide

/-- Witness for C5 at the void element "br". -/
theorem void_start_reclassified_witness :
    simpleParseLoop (some simpleTexterCb) false [Token.startTag "br"] .eof [] true
        initTexter =
      simpleParseLoop (some simpleTexterCb) false [] .eof [] false
        (simpleTexterCb.SelfTag initTexter "br") :=
  void_start_reclassified.1 simpleTexter (some simpleTexterCb) false "br" [] .eof []
    true initTexter (by decide)

/-- C6: the default builder's text handler appends nothing when the enclosing
tag is "title" and otherwise appends the input with every maximal whitespace
run collapsed to one space; `cleanWhiteSpace` collapses a concrete run, and
converting "<title>ignore</title><p>Hi</p>" yields "Hi". -/
theorem texter_text_title_dropped :
    (∀ (h : simpleTexter) (enclosing raw : String),
      (simpleTexter.Text h enclosing raw).sb =
        if enclosing = "title" then h.sb else h.sb ++ cleanWhiteSpace raw) ∧
    (∀ (h : simpleTexter) (enclosing raw : String),
      (simpleTexter.Text h enclosing raw).lbr = h.lbr) ∧
    cleanWhiteSpace "a \t\n b" = "a b" ∧
    HTML2TextS "<title>ignore</title><p>Hi</p>" [] = "Hi" := by
  refine ⟨?_, ?_, by decide, by decide⟩
  · intro h enclosing raw
    by_cases he : enclosing = "title"
    · simp [simpleTexter.Text, he]
    · simp [simpleTexter.Text, he]
  · intro h enclosing raw
    by_cases he : enclosing = "title"
    · simp [simpleTexter.Text, he]
    · simp [simpleTexter.Text, he]

/-- C7: the default builder's finalizer returns the buffer trimmed of leading
and trailing spaces and linebreaks, and it is idempotent: applying the trim
to an already-finalized result changes nothing (it is side-effect-free by
construction, a pure function of the builder state). -/
theorem texter_string_trim_idempotent :
    (∀ h : simpleTexter, simpleTexter.Stringify h = goTrim h.sb) ∧
    (∀ h : simpleTexter,
      goTrim (simpleTexter.Stringify h) = simpleTexter.Stringify h) :=
  ⟨fun _ => rfl, fun h => goTrim_idem h.sb⟩

/-- C8: the breaker tables map exactly the spec's keys (opening p=1,
h1..h6=2, ul=1; closing p=1, h1..h6=2, li=1; self br=1) and every other tag
name to 0; converting "<p>Hello</p><p>World</p>" yields "Hello", two
linebreaks, "World". -/
theorem breaker_tables_exact :
    (openingBreakers "p" = 1 ∧ openingBreakers "h1" = 2 ∧ openingBreakers "h2" = 2 ∧
      openingBreakers "h3" = 2 ∧ openingBreakers "h4" = 2 ∧ openingBreakers "h5" = 2 ∧
      openingBreakers "h6" = 2 ∧ openingBreakers "ul" = 1) ∧
    (closingBreakers "p" = 1 ∧ closingBreakers "h1" = 2 ∧ closingBreakers "h2" = 2 ∧
      closingBreakers "h3" = 2 ∧ closingBreakers "h4" = 2 ∧ closingBreakers "h5" = 2 ∧
      closingBreakers "h6" = 2 ∧ closingBreakers "li" = 1) ∧
    selfBreakers "br" = 1 ∧
    (∀ t : String, t ∉ (["p", "h1", "h2", "h3", "h4", "h5", "h6", "ul"] : List String) →
      openingBreakers t = 0) ∧
    (∀ t : String, t ∉ (["p", "h1", "h2", "h3", "h4", "h5", "h6", "li"] : List String) →
      closingBreakers t = 0) ∧
    (∀ t : String, t ≠ "br" → selfBreakers t = 0) ∧
    HTML2TextS "<p>Hello</p><p>World</p>" [] = "Hello\n\nWorld" := by
  refine ⟨by decide, by decide, by decide, ?_, ?_, ?_, by decide⟩
  · intro t ht
    simp only [List.mem_cons, List.not_mem_nil, or_false, not_or] at ht
    obtain ⟨h1, h2, h3, h4, h5, h6, h7, h8⟩ := ht
    simp [openingBreakers, h1, h2, h3, h4, h5, h6, h7, h8]
  · intro t ht
    simp only [List.mem_cons, List.not_mem_nil, or_false, not_or] at ht
    obtain ⟨h1, h2, h3, h4, h5, h6, h7, h8⟩ := ht
    simp [closingBreakers, h1, h2, h3, h4, h5, h6, h7, h8]
  · intro t ht
    simp [selfBreakers, ht]

/-- Witness for C8 at the unmapped tag "div". -/
theorem breaker_tables_exact_witness :
    openingBreakers "div" = 0 ∧ closingBreakers "div" = 0 ∧ selfBreakers "div" = 0 :=
  ⟨breaker_tables_exact.2.2.2.1 "div" (by decide),
   breaker_tables_exact.2.2.2.2.1 "div" (by decide),
   breaker_tables_exact.2.2.2.2.2.1 "div" (by decide)⟩

/-- C9: `HTML2Text` returns "" whenever the underlying parse fails, for any
reason, and returns the builder's finalized text exactly when the parse
succeeds; parsing the unterminated "<p>Hi" yields "". -/
theorem html2text_swallows_errors :
    (∀ (tokens : List Token) (cause : Cause) (winLbr : List Bool) (e : ParseError),
      simpleParse (some simpleTexterCb) { sb := "", lbr := lbrOf winLbr } false
          tokens cause = .error e →
        HTML2Text tokens cause winLbr = "") ∧
    (∀ (tokens : List Token) (cause : Cause) (winLbr : List Bool) (t : simpleTexter),
      simpleParse (some simpleTexterCb) { sb := "", lbr := lbrOf winLbr } false
          tokens cause = .ok t →
        HTML2Text tokens cause winLbr = t.Stringify) ∧
    HTML2TextS "<p>Hi" [] = "" := by
  refine ⟨?_, ?_, by decide⟩
  · intro tokens cause winLbr e he
    unfold HTML2Text
    rw [he]
  · intro tokens cause winLbr t ht
    unfold HTML2Text
    rw [ht]

/-- Witness for C9: the unterminated source "<p>Hi" parses to an error, and
`HTML2Text` returns the empty string there. -/
theorem html2text_swallows_errors_witness :
    HTML2Text (tokenize "<p>Hi".data) .eof [] = "" :=
  html2text_swallows_errors.1 (tokenize "<p>Hi".data) .eof []
    (.unterminatedTag "p") rfl

/-- C10: every `Pop`/`Peek` in `simpleParse` is guarded by a length check and
only strings are ever pushed, so in the total embedding (where pop and peek
return an `Option` and the string coercion can fail) the panic outcome is
unreachable for every input. -/
theorem simpleParse_never_panics :
    ∀ (σ : Type) (cb? : Option (HtmlTexter σ)) (mustTag : Bool)
      (tokens : List Token) (cause : Cause) (st : σ),
      simpleParse cb? st mustTag tokens cause ≠ .error .panicked := by
  intro σ cb? mustTag tokens cause st
  apply simpleParseLoop_no_panic
  intro v hv
  simp at hv

/-- Witness for C10 at a concrete parse with a stray end tag. -/
theorem simpleParse_never_panics_witness :
    simpleParse (none : Option (HtmlTexter Unit)) () true [Token.endTag "p"] .eof ≠
      .error .panicked :=
  simpleParse_never_panics Unit none true [Token.endTag "p"] .eof ()
